import Mathlib

/-!
Formalization of the NFL Combine Analytics Dashboard (`app.py`).

The dashboard is a single pass over an in-memory table of combine records.
We embed the table as a `List Record`, with every nullable column an
`Option`: pandas `NaN` cells become `none`, and every elementwise pandas
comparison against `NaN` is `false`, which the boolean helpers below
reproduce.  Rational numbers stand in for the float columns; all the
arithmetic the dashboard performs on them (counting, division by a list
length, `100 - x`) is exact in `ℚ`.
-/

/-- The six comparison metrics of the dashboard (`compare_metrics` in
`app.py`), plus nothing else: `year` and `weight` are kept as record
fields, not metrics. -/
inductive Metric : Type
  | forty
  | vertical
  | bench
  | broad_jump
  | threecone
  | shuttle
deriving DecidableEq

/-- One row of the merged dataframe `df` (after `load_data`, the rename,
the `to_numeric` coercion and the headshot merge).  Numeric columns that
can hold `NaN` are `Option ℚ`; `position`, `school` and `headshot` can be
missing in the CSV, hence `Option String`. -/
structure Record : Type where
  player : String
  position : Option String
  school : Option String
  year : Option ℚ
  forty : Option ℚ
  vertical : Option ℚ
  bench : Option ℚ
  broad_jump : Option ℚ
  threecone : Option ℚ
  shuttle : Option ℚ
  headshot : Option String
deriving DecidableEq

/-- Column access `r[metric_name]` for the six comparison metrics. -/
def Record.metricVal (r : Record) : Metric → Option ℚ
  | .forty => r.forty
  | .vertical => r.vertical
  | .bench => r.bench
  | .broad_jump => r.broad_jump
  | .threecone => r.threecone
  | .shuttle => r.shuttle

/-- `compare_metrics` (app.py lines 462-463). -/
def compare_metrics : List Metric :=
  [.forty, .vertical, .bench, .broad_jump, .threecone, .shuttle]

/-- `lower_better` (app.py line 554). -/
def lower_better : List Metric := [.forty, .threecone, .shuttle]

/-- Pandas elementwise equality of an `Option String` cell against an
`Option String` scalar: any comparison involving `NaN` is `false`
(`NaN == NaN` is `false` in pandas). -/
def posEq (a b : Option String) : Bool :=
  match a, b with
  | some x, some y => x == y
  | _, _ => false

/-- Pandas elementwise `<` between a nullable cell and a nullable scalar:
`false` whenever either side is `NaN`. -/
def ltB (a b : Option ℚ) : Bool :=
  match a, b with
  | some x, some y => decide (x < y)
  | _, _ => false

/-- `comparison_df = df.copy().dropna(subset=compare_metrics)`
(app.py lines 460-465): rows that are null in ANY of the six comparison
metrics are dropped. -/
def comparison_df (df : List Record) : List Record :=
  df.filter (fun r => compare_metrics.all (fun m => (r.metricVal m).isSome))

/-- `position_df = comparison_df[comparison_df["position"] == p1_data["position"]]`
(app.py lines 534-536).  The pool always comes from player 1's position. -/
def position_df (df : List Record) (p1 : Record) : List Record :=
  (comparison_df df).filter (fun r => posEq r.position p1.position)

/-- `(values < x).mean() * 100` for a pandas series `values` (a column of
`position_df`) and nullable scalar `x`: the comparison maps `NaN` cells
(on either side) to `False`, and `mean` divides by the full series length.
`mean` of an empty series is `NaN`, modelled as `none`. -/
def meanLtPct (values : List (Option ℚ)) (x : Option ℚ) : Option ℚ :=
  if values.length = 0 then none
  else some (((values.filter (fun v => ltB v x)).length : ℚ) / (values.length : ℚ) * 100)

/-- The raw (pre-inversion) percentile the comparison loop computes for
entity `ent` on metric `m` (app.py lines 541-548): the pool is
`position_df` built from `p1`'s position, the compared value is
`ent[metric_name]`. -/
def rawPctCode (df : List Record) (p1 ent : Record) (m : Metric) : Option ℚ :=
  meanLtPct ((position_df df p1).map (fun r => r.metricVal m)) (ent.metricVal m)

/-- The reported percentile after the lower-is-better inversion
(app.py lines 553-557): `100 - pct` exactly for the metrics in
`lower_better`.  `100 - NaN` is `NaN`, modelled by `Option.map`. -/
def reportedPct (df : List Record) (p1 ent : Record) (m : Metric) : Option ℚ :=
  if m ∈ lower_better then (rawPctCode df p1 ent m).map (fun q => 100 - q)
  else rawPctCode df p1 ent m

/-- The pair of reported percentiles the comparison section renders for
one metric: both pools come from `p1`'s position. -/
def comparePair (df : List Record) (p1 p2 : Record) (m : Metric) :
    Option ℚ × Option ℚ :=
  (reportedPct df p1 p1 m, reportedPct df p1 p2 m)

/-- The whole comparison section as a function of the page state.  The
sidebar year range `y0, y1` and position selection `posSel` are in scope
on the page but the section reads `df` directly (`comparison_df = df.copy()`,
app.py line 460), never `filtered_df`; the sidebar arguments are unused. -/
def comparisonSection (df : List Record) (y0 y1 : ℚ) (posSel : String)
    (p1 p2 : Record) (m : Metric) : Option ℚ × Option ℚ :=
  comparePair df p1 p2 m

/-- Python `round` (banker's rounding: ties go to the even integer). -/
def pyRound (q : ℚ) : Int :=
  if q - ⌊q⌋ < 1/2 then ⌊q⌋
  else if q - ⌊q⌋ > 1/2 then ⌊q⌋ + 1
  else if 2 ∣ ⌊q⌋ then ⌊q⌋ else ⌊q⌋ + 1

/-- `int(round(p))` in the bar-rendering loop (app.py line 593).
`round(nan)` is `nan` and `int(nan)` raises `ValueError`; the raised
exception is modelled as `none`. -/
def displayPct (q : Option ℚ) : Option Int := q.map pyRound

/-- Pandas `>=` / `<=` of a nullable `year` cell against the slider bound:
`false` when the cell is `NaN`. -/
def yearGeB (y : Option ℚ) (b : ℚ) : Bool :=
  match y with
  | some v => decide (b ≤ v)
  | none => false

def yearLeB (y : Option ℚ) (b : ℚ) : Bool :=
  match y with
  | some v => decide (v ≤ b)
  | none => false

/-- Pandas equality of a nullable string cell against a plain string
scalar (`filtered_df["position"] == selected_position`): `NaN` compares
`false`. -/
def cellEqStr (a : Option String) (s : String) : Bool :=
  match a with
  | some t => t == s
  | none => false

/-- The year-range mask (app.py lines 192-195). -/
def year_filtered (df : List Record) (y0 y1 : ℚ) : List Record :=
  df.filter (fun r => yearGeB r.year y0 && yearLeB r.year y1)

/-- The sidebar filter (app.py lines 192-198): year-range mask first, then
the position mask unless the selection is the sentinel `"All"`. -/
def filtered_df (df : List Record) (y0 y1 : ℚ) (posSel : String) : List Record :=
  if posSel == "All" then year_filtered df y0 y1
  else (year_filtered df y0 y1).filter (fun r => cellEqStr r.position posSel)

/-- The second component of `event_options[label]` (app.py lines 200-207):
`ascending_sort`, true exactly for the drills labelled `(Fastest)`. -/
def event_ascending : Metric → Bool
  | .forty => true
  | .vertical => false
  | .bench => false
  | .broad_jump => false
  | .threecone => true
  | .shuttle => true

/-- `performance_df.sort_values(metric, ascending=ascending_sort).head(top_n)`
preceded by `dropna(subset=[metric])` (app.py lines 408-417).  The rows are
keyed by their metric value (the `filterMap` is the `dropna`: every kept
row has a `some` value) and sorted in the direction `event_ascending`
prescribes. -/
def top_performers (sub : List Record) (m : Metric) (n : Nat) : List Record :=
  let keyed := sub.filterMap (fun r => (r.metricVal m).map (fun v => (v, r)))
  let sorted := keyed.mergeSort
    (fun a b => if event_ascending m then decide (a.1 ≤ b.1) else decide (b.1 ≤ a.1))
  (sorted.map (fun p => p.2)).take n

/-- The manual school-to-state dictionary (app.py lines 238-268). -/
def school_state_map : List (String × String) :=
  [("Alabama", "AL"), ("Auburn", "AL"), ("Notre Dame", "IN"), ("LSU", "LA"),
   ("Ohio State", "OH"), ("Michigan", "MI"), ("Florida", "FL"),
   ("Florida State", "FL"), ("Georgia", "GA"), ("Texas", "TX"),
   ("Texas A&M", "TX"), ("Oklahoma", "OK"), ("USC", "CA"), ("UCLA", "CA"),
   ("Clemson", "SC"), ("Penn State", "PA"), ("Tennessee", "TN"),
   ("Oregon", "OR"), ("Washington", "WA"), ("Wisconsin", "WI"),
   ("Iowa", "IA"), ("North Carolina", "NC"), ("NC State", "NC"),
   ("South Carolina", "SC"), ("Arkansas", "AR"), ("Mississippi State", "MS"),
   ("Ole Miss", "MS"), ("Kentucky", "KY"), ("Miami (FL)", "FL")]

/-- Dictionary lookup used by `Series.map`: unmapped keys give `NaN`. -/
def lookupState (s : String) : Option String :=
  (school_state_map.find? (fun p => p.1 == s)).map (fun p => p.2)

/-- The `state` column (`filtered_df["school"].map(school_state_map)`,
app.py line 271): `NaN` school stays `NaN`, unmapped school becomes `NaN`. -/
def stateOf (r : Record) : Option String := r.school.bind lookupState

/-- `state_df.groupby("state").size()` after `dropna(subset=["state"])`
(app.py lines 274-281): the list of (state, row count) pairs, one pair per
state that occurs.  The sorted key order pandas produces is not modelled;
the mapping content is. -/
def state_counts (sub : List Record) : List (String × Nat) :=
  let states := sub.filterMap stateOf
  states.dedup.map (fun st => (st, states.count st))

/-- Python substring test `pat in hay` on character lists. -/
def containsChars (pat : List Char) : List Char → Bool
  | [] => pat.isEmpty
  | c :: t => pat.isPrefixOf (c :: t) || containsChars pat t

/-- Python `str.replace`: replace non-overlapping occurrences of `pat`
left to right.  (For the empty pattern, which never occurs in the
dashboard, the string is returned unchanged.) -/
def replChars (pat rep : List Char) : List Char → List Char
  | [] => []
  | c :: t =>
    if pat.isPrefixOf (c :: t) && !pat.isEmpty then
      rep ++ replChars pat rep (t.drop (pat.length - 1))
    else
      c :: replChars pat rep t
termination_by hay => hay.length
decreasing_by
  · simp only [List.length_drop, List.length_cons]
    omega
  · simp

/-- `pat in hay` at the `String` level. -/
def strContains (hay pat : String) : Bool := containsChars pat.data hay.data

/-- `hay.replace(pat, rep)` at the `String` level. -/
def pyReplace (hay pat rep : String) : String :=
  String.mk (replChars pat.data rep.data hay.data)

/-- `display_headshot(url)` (app.py lines 488-498).  The cell is either a
string or `NaN` (`none`); `pd.notna` plus `isinstance(str)` is the `some`
case. -/
def display_headshot (url : Option String) : String :=
  match url with
  | some u =>
    if strContains u "static.www.nfl.com" then
      if strContains u "\x7bformatInstructions\x7d" then
        pyReplace u "\x7bformatInstructions\x7d" "t_headshot_desktop"
      else u
    else "no_player.png"
  | none => "no_player.png"

/-- `players = sorted(comparison_df["player"].unique())` (app.py line 467):
the options of both selectboxes.  `unique` keeps one copy per name,
`sorted` orders them. -/
def players (df : List Record) : List String :=
  (((comparison_df df).map (fun r => r.player)).dedup).mergeSort
    (fun a b => !decide (b < a))

/-- `comparison_df[comparison_df["player"] == name].iloc[0]`
(app.py lines 482-483): the first matching row; `iloc[0]` on an empty
selection raises, modelled as `none`. -/
def p1_data (df : List Record) (name : String) : Option Record :=
  ((comparison_df df).filter (fun r => r.player == name)).head?

/-- The comparison tool driven by the two selected names: look both rows
up (lines 482-483) and feed them to the percentile loop. -/
def compareByName (df : List Record) (n1 n2 : String) (m : Metric) :
    Option (Option ℚ × Option ℚ) :=
  match p1_data df n1, p1_data df n2 with
  | some p1, some p2 => some (comparePair df p1 p2 m)
  | _, _ => none

/-- The raw percentile exactly as the specification words it: the peer
group is ALL records of `df` whose position equals entity A's position,
the values are the non-null `m`-values of that group (records null only
in other metrics still counted), and the percentile is the strict
less-than fraction scaled to 100.  Written from the spec text, to be
compared with `rawPctCode`. -/
def rawPctSpec (df : List Record) (pA : Record) (x : ℚ) (m : Metric) : Option ℚ :=
  let vals := (df.filter (fun r => posEq r.position pA.position)).filterMap
    (fun r => r.metricVal m)
  if vals.length = 0 then none
  else some (((vals.filter (fun v => decide (v < x))).length : ℚ) / (vals.length : ℚ) * 100)

/-! ## Concrete datasets used as witnesses and counterexamples -/

/-- A record with the given name, position and six metric cells; the
columns the comparison engine never reads are fixed. -/
def mkRec (name : String) (pos : Option String)
    (f v b bj tc sh : Option ℚ) : Record :=
  { player := name, position := pos, school := none, year := some 2020,
    forty := f, vertical := v, bench := b, broad_jump := bj,
    threecone := tc, shuttle := sh, headshot := none }

/-- A complete-data QB whose forty is 5. -/
def rA : Record := mkRec "A" (some "QB") (some 5) (some 1) (some 1) (some 1) (some 1) (some 1)

/-- A QB with a non-null forty of 4 but a null bench cell. -/
def rB : Record := mkRec "B" (some "QB") (some 4) (some 1) none (some 1) (some 1) (some 1)

def exC1 : List Record := [rA, rB]

/-- A complete-data WR whose forty is 5. -/
def rA2 : Record := mkRec "A2" (some "WR") (some 5) (some 1) (some 1) (some 1) (some 1) (some 1)

/-- A WR with a non-null forty of 4 but a null shuttle cell. -/
def rC2 : Record := mkRec "C2" (some "WR") (some 4) (some 1) (some 1) (some 1) (some 1) none

/-- A complete-data RB whose forty is 9/2. -/
def rB2 : Record := mkRec "B2" (some "RB") (some (9/2)) (some 1) (some 1) (some 1) (some 1) (some 1)

def exC2 : List Record := [rA2, rC2, rB2]

/-- A complete-data record whose position cell is missing. -/
def rN : Record := mkRec "N" none (some 4) (some 1) (some 1) (some 1) (some 1) (some 1)

def exC4 : List Record := [rN]

/-- A complete-data QB alone in its dataset. -/
def rS : Record := mkRec "S" (some "QB") (some 4) (some 30) (some 20) (some 120) (some 7) (some 4)

def exC5 : List Record := [rS]

/-- Three complete-data QBs with forty 4, 5, 6. -/
def rQ1 : Record := mkRec "Q1" (some "QB") (some 4) (some 1) (some 1) (some 1) (some 1) (some 1)

def rQ2 : Record := mkRec "Q2" (some "QB") (some 5) (some 1) (some 1) (some 1) (some 1) (some 1)

def rQ3 : Record := mkRec "Q3" (some "QB") (some 6) (some 1) (some 1) (some 1) (some 1) (some 1)

def exQB : List Record := [rQ1, rQ2, rQ3]

/-- Two complete-data records sharing the player name "Dup". -/
def rD1 : Record := mkRec "Dup" (some "QB") (some 4) (some 1) (some 1) (some 1) (some 1) (some 1)

def rD2 : Record := mkRec "Dup" (some "QB") (some 5) (some 2) (some 2) (some 2) (some 2) (some 2)

def exC10 : List Record := [rD1, rD2]

/-- A record from a mapped school and one from an unmapped school. -/
def rAl : Record := { mkRec "X" (some "QB") none none none none none none with school := some "Alabama" }

def rUn : Record := { mkRec "Y" (some "QB") none none none none none none with school := some "Nowhere U" }

/-! ## Shared lemmas -/

/-- Every row of `comparison_df` is non-null in every one of the six
comparison metrics: that is what the `dropna(subset=compare_metrics)`
guarantees. -/
theorem mem_comparison_df_isSome {df : List Record} {r : Record}
    (h : r ∈ comparison_df df) (m : Metric) : (r.metricVal m).isSome = true := by
  have h2 := (List.mem_filter.mp h).2
  have hm : m ∈ compare_metrics := by cases m <;> simp [compare_metrics]
  exact List.all_eq_true.mp h2 m hm

/-- Extracting the `m` column of an all-non-null list of rows keeps every
row. -/
theorem filterMap_metric_length {m : Metric} :
    ∀ (l : List Record), (∀ r ∈ l, (r.metricVal m).isSome = true) →
      (l.filterMap (fun r => r.metricVal m)).length = l.length
  | [], _ => rfl
  | r :: t, h => by
    obtain ⟨x, hx⟩ := Option.isSome_iff_exists.mp (h r (by simp))
    simp only [List.filterMap_cons, hx, List.length_cons]
    rw [filterMap_metric_length t (fun s hs => h s (by simp [hs]))]

/-- On an all-non-null column, the pandas elementwise `<` count agrees
with the strict `<` count over the extracted values. -/
theorem filter_lt_count {m : Metric} {x : ℚ} :
    ∀ (l : List Record), (∀ r ∈ l, (r.metricVal m).isSome = true) →
      ((l.map (fun r => r.metricVal m)).filter (fun v => ltB v (some x))).length
        = ((l.filterMap (fun r => r.metricVal m)).filter (fun v => decide (v < x))).length
  | [], _ => rfl
  | r :: t, h => by
    obtain ⟨y, hy⟩ := Option.isSome_iff_exists.mp (h r (by simp))
    have ih := filter_lt_count (m := m) (x := x) t (fun s hs => h s (by simp [hs]))
    simp only [List.map_cons, List.filterMap_cons, hy, List.filter_cons]
    have hl : ltB (some y) (some x) = decide (y < x) := rfl
    rw [hl]
    by_cases hlt : y < x
    · simp [hlt, ih]
    · simp [hlt, ih]

/-- A defined output of `meanLtPct` lies between 0 and 100. -/
theorem meanLtPct_range {values : List (Option ℚ)} {x : Option ℚ} {q : ℚ}
    (h : meanLtPct values x = some q) : 0 ≤ q ∧ q ≤ 100 := by
  unfold meanLtPct at h
  by_cases h0 : values.length = 0
  · simp [h0] at h
  · rw [if_neg h0] at h
    have hq : (((values.filter (fun v => ltB v x)).length : ℚ) / (values.length : ℚ)) * 100 = q := by
      simpa using h
    have hc : (values.filter (fun v => ltB v x)).length ≤ values.length :=
      List.length_filter_le _ _
    have hn : 0 < (values.length : ℚ) := by
      have : 0 < values.length := Nat.pos_of_ne_zero h0
      exact_mod_cast this
    constructor
    · rw [← hq]
      have : (0:ℚ) ≤ ((values.filter (fun v => ltB v x)).length : ℚ) / (values.length : ℚ) :=
        div_nonneg (Nat.cast_nonneg _) (le_of_lt hn)
      linarith
    · rw [← hq]
      have hdiv : ((values.filter (fun v => ltB v x)).length : ℚ) / (values.length : ℚ) ≤ 1 := by
        rw [div_le_one hn]
        exact_mod_cast hc
      linarith

/-! ## Claims -/

/-- Claim C1, corrected.  For every metric M and compared entity with
value x for M, the raw percentile equals (count of M-values v strictly
below x in the peer pool) / (count of M-values in the pool) * 100 — but
the pool is NOT all position-matching records of `allRecords`: it is the
position-matching records of `comparison_df`, i.e. only records non-null
in ALL six metrics.  A record null in some other metric is excluded from
the pool for M as well. -/
theorem claim_C1_amended (df : List Record) (pA ent : Record) (m : Metric) (x : ℚ)
    (hx : ent.metricVal m = some x) (hne : position_df df pA ≠ []) :
    rawPctCode df pA ent m =
      some (((((position_df df pA).filterMap (fun r => r.metricVal m)).filter
          (fun v => decide (v < x))).length : ℚ) /
        ((((position_df df pA).filterMap (fun r => r.metricVal m)).length : ℚ)) * 100) := by
  have hsub : ∀ r ∈ position_df df pA, (r.metricVal m).isSome = true := by
    intro r hr
    exact mem_comparison_df_isSome (List.mem_filter.mp hr).1 m
  have hlen := filterMap_metric_length (m := m) (position_df df pA) hsub
  have hcnt := filter_lt_count (m := m) (x := x) (position_df df pA) hsub
  have hne' : ¬ ((position_df df pA).map (fun r => r.metricVal m)).length = 0 := by
    simpa [List.length_map, List.length_eq_zero] using hne
  unfold rawPctCode meanLtPct
  rw [hx, if_neg hne', hcnt, List.length_map, ← hlen]

/-- Witness for C1: the spec's own end-to-end scenario with three QBs at
forty 4, 5, 6; the slowest one sits strictly above 2 of the 3 pool values,
a raw percentile of 200/3 (66.7). -/
theorem claim_C1_witness : rawPctCode exQB rQ3 rQ3 .forty = some (200/3) := by
  have h := claim_C1_amended exQB rQ3 rQ3 .forty 6 rfl (by decide)
  rw [h]
  norm_num [position_df, comparison_df, exQB, rQ1, rQ2, rQ3, mkRec,
    Record.metricVal, compare_metrics, posEq, List.filterMap_cons]

/-- Counterexample to C1 as stated: in `exC1`, record B is a QB with a
non-null forty of 4 (null only in bench), so the claim's formula over all
QB records puts A's forty of 5 at raw percentile 50, but the code drops B
from the pool entirely and computes 0. -/
theorem claim_C1_cex :
    rA.metricVal .forty = some 5 ∧
    rawPctCode exC1 rA rA .forty = some 0 ∧
    rawPctSpec exC1 rA 5 .forty = some 50 ∧
    rawPctCode exC1 rA rA .forty ≠ rawPctSpec exC1 rA 5 .forty := by
  refine ⟨rfl, ?_, ?_, ?_⟩
  · norm_num [rawPctCode, position_df, comparison_df, exC1, compare_metrics, rA, rB,
      mkRec, Record.metricVal, meanLtPct, ltB, posEq]
  · norm_num [rawPctSpec, exC1, compare_metrics, rA, rB, mkRec, Record.metricVal,
      posEq, List.filterMap_cons]
  · have h1 : rawPctCode exC1 rA rA .forty = some 0 := by
      norm_num [rawPctCode, position_df, comparison_df, exC1, compare_metrics, rA, rB,
        mkRec, Record.metricVal, meanLtPct, ltB, posEq]
    have h2 : rawPctSpec exC1 rA 5 .forty = some 50 := by
      norm_num [rawPctSpec, exC1, compare_metrics, rA, rB, mkRec, Record.metricVal,
        posEq, List.filterMap_cons]
    rw [h1, h2]
    norm_num

/-- Claim C2, corrected.  For every pair of compared entities the peer
pool for BOTH percentiles is the position-matching subset of
`comparison_df` — the unfiltered dataset restricted to records complete
in all six metrics — keyed on entity A's position (even when entity B's
position differs, B's position is never read), and the sidebar year and
position selections have no effect on the section's output. -/
theorem claim_C2_amended (df : List Record) (y0 y1 y0' y1' : ℚ) (s s' : String)
    (p1 p2 : Record) (m : Metric) (q : Option String) :
    comparisonSection df y0 y1 s p1 p2 m = comparisonSection df y0' y1' s' p1 p2 m ∧
    position_df df p1 =
      (df.filter (fun r => compare_metrics.all (fun m2 => (r.metricVal m2).isSome))).filter
        (fun r => posEq r.position p1.position) ∧
    comparisonSection df y0 y1 s p1 p2 m =
      ((if m ∈ lower_better then
          (meanLtPct ((position_df df p1).map (fun r => r.metricVal m)) (p1.metricVal m)).map
            (fun v => 100 - v)
        else meanLtPct ((position_df df p1).map (fun r => r.metricVal m)) (p1.metricVal m)),
       (if m ∈ lower_better then
          (meanLtPct ((position_df df p1).map (fun r => r.metricVal m)) (p2.metricVal m)).map
            (fun v => 100 - v)
        else meanLtPct ((position_df df p1).map (fun r => r.metricVal m)) (p2.metricVal m))) ∧
    comparisonSection df y0 y1 s p1 { p2 with position := q } m =
      comparisonSection df y0 y1 s p1 p2 m := by
  refine ⟨rfl, rfl, ?_, ?_⟩
  · unfold comparisonSection comparePair reportedPct rawPctCode
    by_cases hm : m ∈ lower_better <;> simp [hm]
  · unfold comparisonSection comparePair reportedPct rawPctCode
    have hp : Record.metricVal { p2 with position := q } m = p2.metricVal m := by
      cases m <;> rfl
    rw [hp]

/-- Counterexample to C2 as stated: rC2 is a WR record of the unfiltered
dataset (non-null forty 4, null shuttle), so a pool of "all records whose
position equals entity A's position" puts B2's forty of 9/2 at percentile
50; the code's pool drops rC2 and computes 0. -/
theorem claim_C2_cex :
    rB2.metricVal .forty = some (9/2) ∧
    posEq rB2.position rA2.position = false ∧
    rawPctCode exC2 rA2 rB2 .forty = some 0 ∧
    rawPctSpec exC2 rA2 (9/2) .forty = some 50 ∧
    rawPctCode exC2 rA2 rB2 .forty ≠ rawPctSpec exC2 rA2 (9/2) .forty := by
  have h1 : rawPctCode exC2 rA2 rB2 .forty = some 0 := by
    norm_num [rawPctCode, position_df, comparison_df, exC2, compare_metrics, rA2, rC2,
      rB2, mkRec, Record.metricVal, meanLtPct, ltB, posEq]
  have h2 : rawPctSpec exC2 rA2 (9/2) .forty = some 50 := by
    have hRB : ("RB" : String) = "WR" ↔ False := by simp
    norm_num [rawPctSpec, exC2, compare_metrics, rA2, rC2, rB2, mkRec,
      Record.metricVal, posEq, List.filterMap_cons, List.filter_cons, hRB]
  refine ⟨rfl, rfl, h1, h2, ?_⟩
  rw [h1, h2]
  norm_num

/-- A defined raw percentile of the comparison loop lies between 0 and
100. -/
theorem rawPctCode_range {df : List Record} {p1 ent : Record} {m : Metric} {q : ℚ}
    (h : rawPctCode df p1 ent m = some q) : 0 ≤ q ∧ q ≤ 100 := by
  unfold rawPctCode at h
  exact meanLtPct_range h

/-- Claim C3, confirmed.  The reported percentile is `100 - raw` exactly
for the lower-is-better metrics (forty, threecone, shuttle), is the raw
percentile unchanged for every other metric, and every defined reported
percentile lies in [0, 100]. -/
theorem claim_C3 (df : List Record) (p1 ent : Record) (m : Metric) :
    (∀ q, m ∈ lower_better → rawPctCode df p1 ent m = some q →
      reportedPct df p1 ent m = some (100 - q)) ∧
    (m ∉ lower_better → reportedPct df p1 ent m = rawPctCode df p1 ent m) ∧
    (m ∈ lower_better ↔ (m = .forty ∨ m = .threecone ∨ m = .shuttle)) ∧
    (∀ q, reportedPct df p1 ent m = some q → 0 ≤ q ∧ q ≤ 100) := by
  refine ⟨?_, ?_, ?_, ?_⟩
  · intro q hm hraw
    unfold reportedPct
    rw [if_pos hm, hraw]
    rfl
  · intro hm
    unfold reportedPct
    rw [if_neg hm]
  · cases m <;> simp [lower_better]
  · intro q hq
    unfold reportedPct at hq
    by_cases hm : m ∈ lower_better
    · rw [if_pos hm] at hq
      obtain ⟨q0, hq0, hmap⟩ := Option.map_eq_some'.mp hq
      have hr := rawPctCode_range hq0
      constructor
      · rw [← hmap]
        linarith [hr.2]
      · rw [← hmap]
        linarith [hr.1]
    · rw [if_neg hm] at hq
      exact rawPctCode_range hq

/-- Witness for C3 at a one-QB dataset: the raw forty percentile 0 is
reported as 100, and 100 lies in [0, 100]. -/
theorem claim_C3_witness :
    reportedPct exC5 rS rS .forty = some (100 - 0) ∧
    (0:ℚ) ≤ 100 - 0 ∧ (100 - 0 : ℚ) ≤ 100 := by
  have h := claim_C3 exC5 rS rS .forty
  have hraw : rawPctCode exC5 rS rS .forty = some 0 := by
    norm_num [rawPctCode, position_df, comparison_df, exC5, compare_metrics, rS,
      mkRec, Record.metricVal, meanLtPct, ltB, posEq]
  have hrep := h.1 0 (by decide) hraw
  exact ⟨hrep, (h.2.2.2 (100 - 0) hrep).1, (h.2.2.2 (100 - 0) hrep).2⟩

/-- Claim C4, evaluated at the failing input.  When the peer pool for a
metric is empty (here: the selected player's position cell is null, so no
row of `comparison_df` position-matches it), the percentile computation
raises no division fault and produces the NaN sentinel (`none`), the
inversion keeps the sentinel — but the presentation step `int(round(p))`
does NOT handle it: `int(round(nan))` raises `ValueError`, modelled by
`displayPct` returning `none` instead of a rendered integer. -/
theorem claim_C4_eval :
    position_df exC4 rN = [] ∧
    rawPctCode exC4 rN rN .forty = none ∧
    reportedPct exC4 rN rN .forty = none ∧
    displayPct (reportedPct exC4 rN rN .forty) = none := by decide

/-- Claim C5, confirmed.  A peer pool consisting of exactly the entity
itself (with a non-null value) gives raw percentile 0 — nothing is
strictly below the entity's own value — and reported percentile 100 for a
lower-is-better metric. -/
theorem claim_C5 (df : List Record) (p1 : Record) (m : Metric) (x : ℚ)
    (hpool : position_df df p1 = [p1]) (hx : p1.metricVal m = some x) :
    rawPctCode df p1 p1 m = some 0 ∧
    (m ∈ lower_better → reportedPct df p1 p1 m = some 100) := by
  have hraw : rawPctCode df p1 p1 m = some 0 := by
    unfold rawPctCode meanLtPct
    rw [hpool]
    simp [hx, ltB]
  refine ⟨hraw, fun hm => ?_⟩
  unfold reportedPct
  rw [if_pos hm, hraw]
  norm_num

/-- Witness for C5: the singleton QB dataset; its forty percentile is
reported as 100. -/
theorem claim_C5_witness :
    rawPctCode exC5 rS rS .forty = some 0 ∧
    reportedPct exC5 rS rS .forty = some 100 :=
  ⟨(claim_C5 exC5 rS .forty 4 (by decide) rfl).1,
   (claim_C5 exC5 rS .forty 4 (by decide) rfl).2 (by decide)⟩

/-- A pair produced by the keying `filterMap` of `top_performers` carries
its own row's metric value. -/
theorem keyed_mem {m : Metric} {sub : List Record} {p : ℚ × Record}
    (hp : p ∈ sub.filterMap (fun r => (r.metricVal m).map (fun v => (v, r)))) :
    p.2.metricVal m = some p.1 := by
  obtain ⟨a, _, ha2⟩ := List.mem_filterMap.mp hp
  cases hv : a.metricVal m with
  | none =>
    rw [hv] at ha2
    simp at ha2
  | some v =>
    rw [hv] at ha2
    simp only [Option.map_some'] at ha2
    obtain rfl := Option.some_inj.mp ha2
    simp [hv]

/-- The sort-then-project-then-truncate pipeline of `top_performers`
yields a list pairwise ordered by the rows' metric values under any
transitive, total boolean comparator on the keys. -/
theorem sortPipeline_general (keyedL : List (ℚ × Record)) (m : Metric)
    (cmp : ℚ → ℚ → Bool)
    (htrans : ∀ a b c : ℚ, cmp a b = true → cmp b c = true → cmp a c = true)
    (htotal : ∀ a b : ℚ, (cmp a b || cmp b a) = true)
    (hmem : ∀ p ∈ keyedL, p.2.metricVal m = some p.1) (n : Nat) :
    (((keyedL.mergeSort (fun a b => cmp a.1 b.1)).map (fun p => p.2)).take n).Pairwise
      (fun r s => ∀ x y, r.metricVal m = some x → s.metricVal m = some y →
        cmp x y = true) := by
  have htrans2 : ∀ (a b c : ℚ × Record), cmp a.1 b.1 = true → cmp b.1 c.1 = true →
      cmp a.1 c.1 = true := fun a b c h1 h2 => htrans _ _ _ h1 h2
  have htotal2 : ∀ (a b : ℚ × Record), (cmp a.1 b.1 || cmp b.1 a.1) = true :=
    fun a b => htotal _ _
  have hsorted := List.sorted_mergeSort htrans2 htotal2 keyedL
  have hmemSorted : ∀ p ∈ keyedL.mergeSort (fun a b => cmp a.1 b.1),
      p.2.metricVal m = some p.1 :=
    fun p hp => hmem p ((List.mergeSort_perm keyedL _).mem_iff.mp hp)
  have hpw2 : (keyedL.mergeSort (fun a b => cmp a.1 b.1)).Pairwise
      (fun p q => ∀ x y, p.2.metricVal m = some x → q.2.metricVal m = some y →
        cmp x y = true) := by
    refine hsorted.imp_of_mem ?_
    intro p q hp hq hle x y hx hy
    rw [hmemSorted p hp] at hx
    rw [hmemSorted q hq] at hy
    obtain rfl := Option.some_inj.mp hx
    obtain rfl := Option.some_inj.mp hy
    exact hle
  exact List.Pairwise.sublist (List.take_sublist n _) (List.pairwise_map.mpr hpw2)

/-- Claim C6, confirmed.  The ranking drops null-metric records, sorts by
the metric — ascending exactly for the lower-is-better drills — and
truncates: its output is never longer than the requested N nor than the
input, every output row has a non-null value for the metric, and the
output is pairwise ordered in the metric's native direction. -/
theorem claim_C6 (sub : List Record) (m : Metric) (n : Nat) :
    (top_performers sub m n).length ≤ n ∧
    (top_performers sub m n).length ≤ sub.length ∧
    (∀ r ∈ top_performers sub m n, (r.metricVal m).isSome = true) ∧
    (top_performers sub m n).Pairwise (fun r s => ∀ x y,
      r.metricVal m = some x → s.metricVal m = some y →
      (if event_ascending m = true then x ≤ y else y ≤ x)) ∧
    (event_ascending m = true ↔ m ∈ lower_better) := by
  refine ⟨?_, ?_, ?_, ?_, ?_⟩
  · unfold top_performers
    simp only [List.length_take]
    exact Nat.min_le_left _ _
  · unfold top_performers
    simp only [List.length_take, List.length_map, List.length_mergeSort]
    exact le_trans (Nat.min_le_right _ _) (List.length_filterMap_le _ _)
  · intro r hr
    unfold top_performers at hr
    have hr2 := List.Sublist.mem hr (List.take_sublist n _)
    obtain ⟨p, hp, rfl⟩ := List.mem_map.mp hr2
    have hpk := (List.mergeSort_perm _ _).mem_iff.mp hp
    rw [keyed_mem hpk]
    rfl
  · have htrans : ∀ a b c : ℚ,
        (if event_ascending m then decide (a ≤ b) else decide (b ≤ a)) = true →
        (if event_ascending m then decide (b ≤ c) else decide (c ≤ b)) = true →
        (if event_ascending m then decide (a ≤ c) else decide (c ≤ a)) = true := by
      intro a b c h1 h2
      cases hA : event_ascending m
      · simp [hA] at h1 h2 ⊢
        exact le_trans h2 h1
      · simp [hA] at h1 h2 ⊢
        exact le_trans h1 h2
    have htotal : ∀ a b : ℚ,
        ((if event_ascending m then decide (a ≤ b) else decide (b ≤ a)) ||
         (if event_ascending m then decide (b ≤ a) else decide (a ≤ b))) = true := by
      intro a b
      cases hA : event_ascending m
      · simpa [hA] using le_total b a
      · simpa [hA] using le_total a b
    have hp := sortPipeline_general
      (sub.filterMap (fun r => (r.metricVal m).map (fun v => (v, r)))) m
      (fun x y => if event_ascending m then decide (x ≤ y) else decide (y ≤ x))
      htrans htotal (fun p hp => keyed_mem hp) n
    refine List.Pairwise.imp ?_ hp
    intro r s h x y hx hy
    have hc := h x y hx hy
    cases hA : event_ascending m
    · simp [hA] at hc ⊢
      exact hc
    · simp [hA] at hc ⊢
      exact hc
  · cases m <;> simp [event_ascending, lower_better]

/-- Witness for C6 at a concrete three-record dataset and N = 2. -/
theorem claim_C6_witness :
    (top_performers exQB .forty 2).length ≤ 2 ∧
    (top_performers exQB .forty 2).length ≤ exQB.length ∧
    (event_ascending .forty = true ↔ .forty ∈ lower_better) :=
  ⟨(claim_C6 exQB .forty 2).1, (claim_C6 exQB .forty 2).2.1,
   (claim_C6 exQB .forty 2).2.2.2.2⟩

/-- The year mask keeps a row exactly when its year cell is present and
inside the inclusive range. -/
theorem year_mask_iff (s : Record) (y0 y1 : ℚ) :
    (yearGeB s.year y0 && yearLeB s.year y1) = true ↔
      (∃ y, s.year = some y ∧ y0 ≤ y ∧ y ≤ y1) := by
  cases hy : s.year with
  | none => simp [yearGeB, yearLeB, hy]
  | some v => simp [yearGeB, yearLeB, hy, and_assoc]

/-- Claim C7, confirmed.  The sidebar filter keeps a record iff its year
is non-null and within the inclusive bounds, and — when the selection is
not the sentinel "All" — its position cell equals the selected string
exactly; the result is a sublist of the source table, which is never
modified (the embedding is a pure function of it). -/
theorem claim_C7 (df : List Record) (y0 y1 : ℚ) (posSel : String) (r : Record) :
    (r ∈ filtered_df df y0 y1 posSel ↔
      r ∈ df ∧ (∃ y, r.year = some y ∧ y0 ≤ y ∧ y ≤ y1) ∧
        (posSel ≠ "All" → r.position = some posSel)) ∧
    (filtered_df df y0 y1 posSel).Sublist df := by
  constructor
  · unfold filtered_df year_filtered
    by_cases hAll : posSel = "All"
    · rw [if_pos (by simp [hAll])]
      simp only [List.mem_filter]
      constructor
      · rintro ⟨hin, hb⟩
        exact ⟨hin, (year_mask_iff r y0 y1).mp hb, fun hne => absurd hAll hne⟩
      · rintro ⟨hin, hy, _⟩
        exact ⟨hin, (year_mask_iff r y0 y1).mpr hy⟩
    · rw [if_neg (by simp [hAll])]
      simp only [List.mem_filter]
      constructor
      · rintro ⟨⟨hin, hb⟩, hpos⟩
        refine ⟨hin, (year_mask_iff r y0 y1).mp hb, fun _ => ?_⟩
        cases hp : r.position with
        | none =>
          rw [hp] at hpos
          simp [cellEqStr] at hpos
        | some t =>
          rw [hp] at hpos
          simp only [cellEqStr, beq_iff_eq] at hpos
          rw [hpos]
      · rintro ⟨hin, hy, hpos⟩
        refine ⟨⟨hin, (year_mask_iff r y0 y1).mpr hy⟩, ?_⟩
        rw [hpos hAll]
        simp [cellEqStr]
  · unfold filtered_df
    by_cases hAll : posSel = "All"
    · rw [if_pos (by simp [hAll])]
      exact List.filter_sublist _
    · rw [if_neg (by simp [hAll])]
      exact (List.filter_sublist _).trans (List.filter_sublist _)

/-- Witness for C7: on the two-QB dataset, the record `rD1` (year 2020)
passes the filter for 2019-2021 with position "QB" selected. -/
theorem claim_C7_witness :
    rD1 ∈ filtered_df exC10 2019 2021 "QB" ∧
    (filtered_df exC10 2019 2021 "QB").Sublist exC10 :=
  ⟨(claim_C7 exC10 2019 2021 "QB" rD1).1.mpr
      ⟨by decide, ⟨2020, rfl, by norm_num, by norm_num⟩, fun _ => rfl⟩,
   (claim_C7 exC10 2019 2021 "QB" rD1).2⟩

/-- Claim C8, confirmed.  The geographic aggregation maps exactly the
regions with at least one mapped record to the count of records mapping
there; records with an unmapped or missing school contribute nowhere, and
when no record maps, the aggregation is the empty mapping (no error). -/
theorem claim_C8 (sub : List Record) :
    (∀ st c, (st, c) ∈ state_counts sub ↔
      (0 < c ∧ c = (sub.filter (fun r => stateOf r == some st)).length)) ∧
    ((∀ r ∈ sub, stateOf r = none) → state_counts sub = []) := by
  have hcount : ∀ st : String, (sub.filterMap stateOf).count st =
      (sub.filter (fun r => stateOf r == some st)).length := by
    intro st
    rw [List.count_filterMap, List.countP_eq_length_filter]
  constructor
  · intro st c
    unfold state_counts
    simp only [List.mem_map]
    constructor
    · rintro ⟨a, ha, heq⟩
      have h1 : a = st := congrArg Prod.fst heq
      have h2 : (sub.filterMap stateOf).count a = c := congrArg Prod.snd heq
      subst h1
      subst h2
      have hmem : a ∈ sub.filterMap stateOf := List.mem_dedup.mp ha
      exact ⟨List.count_pos_iff.mpr hmem, hcount a⟩
    · rintro ⟨hpos, rfl⟩
      have hmem : st ∈ sub.filterMap stateOf := by
        rw [← List.count_pos_iff, hcount st]
        exact hpos
      exact ⟨st, List.mem_dedup.mpr hmem, by rw [hcount st]⟩
  · intro hall
    unfold state_counts
    have hnil : sub.filterMap stateOf = [] := List.filterMap_eq_nil_iff.mpr hall
    rw [hnil]
    rfl

/-- Witness for C8: one Alabama record and one unmapped record give the
single entry ("AL", 1); a dataset of only unmapped records aggregates to
the empty mapping. -/
theorem claim_C8_witness :
    ("AL", 1) ∈ state_counts [rAl, rUn] ∧ state_counts [rUn] = [] :=
  ⟨(claim_C8 [rAl, rUn]).1 "AL" 1 |>.mpr ⟨by norm_num, by decide⟩,
   (claim_C8 [rUn]).2 (by decide)⟩

/-- Replacing a pattern that does not occur leaves the character list
unchanged. -/
theorem replChars_of_not_contains (pat rep : List Char) :
    ∀ (hay : List Char), containsChars pat hay = false → replChars pat rep hay = hay := by
  intro hay
  induction hay with
  | nil =>
    intro _
    simp [replChars]
  | cons c t ih =>
    intro h
    rw [containsChars] at h
    obtain ⟨h1, h2⟩ := Bool.or_eq_false_iff.mp h
    rw [replChars, h1]
    simp [ih h2]

/-- `str.replace` is the identity when the pattern is not a substring. -/
theorem pyReplace_of_not_contains (s pat rep : String)
    (h : strContains s pat = false) : pyReplace s pat rep = s := by
  unfold pyReplace
  rw [replChars_of_not_contains _ _ _ h]

/-- Claim C9, confirmed.  `display_headshot` returns the reference itself
(with every occurrence of the placeholder token replaced by the format
directive) exactly when the cell is a string containing the recognized
hostname substring; every other input — a null cell or a string without
the hostname — resolves to the default placeholder image. -/
theorem claim_C9 (url : Option String) :
    (∀ u, url = some u → strContains u "static.www.nfl.com" = true →
      display_headshot url =
        pyReplace u "\x7bformatInstructions\x7d" "t_headshot_desktop") ∧
    ((∀ u, url = some u → strContains u "static.www.nfl.com" = false) →
      display_headshot url = "no_player.png") := by
  constructor
  · rintro u rfl hhost
    simp only [display_headshot]
    rw [if_pos hhost]
    by_cases htok : strContains u "\x7bformatInstructions\x7d" = true
    · rw [if_pos htok]
    · rw [if_neg htok]
      have hfalse : strContains u "\x7bformatInstructions\x7d" = false := by
        simpa using htok
      rw [pyReplace_of_not_contains _ _ _ hfalse]
  · intro hnone
    cases url with
    | none => rfl
    | some u =>
      have hu := hnone u rfl
      simp only [display_headshot]
      rw [if_neg (by simp [hu])]

/-- Witness for C9: a genuine NFL static-host reference resolves to its
replaced form, a foreign host and a null cell both resolve to the
placeholder. -/
theorem claim_C9_witness :
    display_headshot (some "https://static.www.nfl.com/image/\x7bformatInstructions\x7d/a") =
      pyReplace "https://static.www.nfl.com/image/\x7bformatInstructions\x7d/a"
        "\x7bformatInstructions\x7d" "t_headshot_desktop" ∧
    display_headshot (some "https://example.com/a.png") = "no_player.png" ∧
    display_headshot none = "no_player.png" :=
  ⟨(claim_C9 _).1 _ rfl (by decide),
   (claim_C9 (some "https://example.com/a.png")).2 (fun u hu => by
     cases hu
     decide),
   (claim_C9 none).2 (fun u hu => nomatch hu)⟩

/-- `filter` followed by `head?` returns the first element satisfying the
predicate, splitting the list around it. -/
theorem filter_head_first {α : Type} (p : α → Bool) :
    ∀ (l : List α), (∃ r ∈ l, p r = true) →
      ∃ pre r post, l = pre ++ r :: post ∧ p r = true ∧ (∀ s ∈ pre, p s = false) ∧
        (l.filter p).head? = some r := by
  intro l
  induction l with
  | nil =>
    rintro ⟨r, hr, _⟩
    exact absurd hr (List.not_mem_nil r)
  | cons c t ih =>
    rintro ⟨r, hr, hpr⟩
    cases hc : p c
    · have hrt : r ∈ t := by
        rcases List.mem_cons.mp hr with h | h
        · subst h
          rw [hc] at hpr
          exact absurd hpr (by simp)
        · exact h
      obtain ⟨pre, r0, post, heq, hp0, hpre, hhead⟩ := ih ⟨r, hrt, hpr⟩
      refine ⟨c :: pre, r0, post, by simp [heq], hp0, ?_, ?_⟩
      · intro s hs
        rcases List.mem_cons.mp hs with h | h
        · subst h
          exact hc
        · exact hpre s h
      · rw [List.filter_cons, hc]
        simpa using hhead
    · refine ⟨[], c, t, rfl, hc, by simp, ?_⟩
      rw [List.filter_cons, hc]
      simp

/-- A player name occurring in `comparison_df` occurs exactly once in the
selector list `players`. -/
theorem players_count_one {df : List Record} {name : String}
    (h : name ∈ (comparison_df df).map (fun r => r.player)) :
    (players df).count name = 1 := by
  unfold players
  rw [(List.mergeSort_perm (((comparison_df df).map (fun r => r.player)).dedup)
    (fun a b => !decide (b < a))).count_eq]
  exact List.count_eq_one_of_mem (List.nodup_dedup _) (List.mem_dedup.mpr h)

/-- Claim C10, confirmed.  When two or more complete-data records share a
player name, the comparison tool reads that player's row — metric values,
percentiles and portrait all come from it — as the FIRST matching row of
`comparison_df` in table order; rows before it never match, the name
still appears exactly once in the selector list, and the comparison output
is computed from that first row. -/
theorem claim_C10 (df : List Record) (name : String)
    (h : ∃ r ∈ comparison_df df, r.player = name) :
    ∃ pre r post,
      comparison_df df = pre ++ r :: post ∧ r.player = name ∧
      (∀ s ∈ pre, s.player ≠ name) ∧
      p1_data df name = some r ∧
      (players df).count name = 1 ∧
      (∀ n2 p2 m, p1_data df n2 = some p2 →
        compareByName df name n2 m = some (comparePair df r p2 m)) := by
  obtain ⟨r0, hr0, hname⟩ := h
  have hex : ∃ r ∈ comparison_df df, (r.player == name) = true :=
    ⟨r0, hr0, by simp [hname]⟩
  obtain ⟨pre, r, post, heq, hpr, hpre, hhead⟩ :=
    filter_head_first (fun r => r.player == name) (comparison_df df) hex
  have hp1 : p1_data df name = some r := hhead
  have hcnt : (players df).count name = 1 :=
    players_count_one (List.mem_map.mpr ⟨r0, hr0, hname⟩)
  refine ⟨pre, r, post, heq, by simpa using hpr, ?_, hp1, hcnt, ?_⟩
  · intro s hs
    have hf := hpre s hs
    simp at hf
    exact hf
  · intro n2 p2 m hp2
    unfold compareByName
    rw [hp1, hp2]

/-- Witness for C10 on a dataset with two complete-data rows both named
"Dup": the tool resolves the name to the first row. -/
theorem claim_C10_witness :
    ∃ pre r post,
      comparison_df exC10 = pre ++ r :: post ∧ r.player = "Dup" ∧
      (∀ s ∈ pre, s.player ≠ "Dup") ∧
      p1_data exC10 "Dup" = some r ∧
      (players exC10).count "Dup" = 1 ∧
      (∀ n2 p2 m, p1_data exC10 n2 = some p2 →
        compareByName exC10 "Dup" n2 m = some (comparePair exC10 r p2 m)) :=
  claim_C10 exC10 "Dup" ⟨rD1, by decide, rfl⟩
